import Mathlib

/-!
Shallow embedding of `generate_ical.py` (hallenbaeder-stuttgart-2ical).

The embedding models the Python values flowing through `get_opening_hours`
and the per-day loop of `create_calendar` explicitly:

* `Val` is a JSON-like Python value (the pool records come from `response.json()`).
* `PyM` is `Except PyErr`: Python exceptions are explicit.  The source's
  `except (ValueError, TypeError)` clauses catch exactly those two errors;
  `KeyError` (subscripting a dict with a missing key) and `AttributeError`
  (calling `.get` on a non-dict) propagate, as in Python.
* `Date` models `datetime.date` (proleptic Gregorian); `Date.toOrdinal`
  matches `date.toordinal`, and comparison is chronological (lexicographic
  on year/month/day, which agrees with Python's ordering on valid dates).
* `parseIsoDate` models `date.fromisoformat` on the canonical `YYYY-MM-DD`
  form used by the data (`validity.from` / `validity.to` ISO date strings);
  `parseTime` models `time.fromisoformat` on the `HH:MM` form used by the
  data's time-of-day strings.
* `target_date.strftime('%a')` is locale-sensitive in Python (`LC_TIME`);
  the embedding therefore passes the locale's abbreviated-day-name table
  (indexed by Python's `date.weekday()`, Monday = 0) as an explicit
  parameter `abday`, with `localeC` (the POSIX default) and `localeDe`
  (`de_DE`) as the two concrete tables of interest.
-/

/-- A Python/JSON value as delivered by `response.json()`. -/
inductive Val where
  | vNull
  | vBool (b : Bool)
  | vInt (n : Int)
  | vStr (s : String)
  | vList (elems : List Val)
  | vDict (fields : List (String × Val))

/-- Python exceptions that the modelled code can raise. -/
inductive PyErr where
  | valueError
  | typeError
  | keyError
  | attributeError
deriving DecidableEq

/-- Computations that may raise a Python exception. -/
abbrev PyM (α : Type) : Type := Except PyErr α

@[simp] theorem pym_bind_ok {α β : Type} (a : α) (f : α → PyM β) :
    (Except.ok a : PyM α) >>= f = f a := rfl

@[simp] theorem pym_bind_err {α β : Type} (e : PyErr) (f : α → PyM β) :
    (Except.error e : PyM α) >>= f = Except.error e := rfl

@[simp] theorem pym_pure {α : Type} (a : α) : (pure a : PyM α) = Except.ok a := rfl

/-- Association-list lookup for a Python dict (keys are unique in JSON data;
first binding wins, like `dict` lookup). -/
def lookupD : List (String × Val) → String → Option Val
  | [], _ => none
  | (k', v) :: rest, k => if k' == k then some v else lookupD rest k

/-- Python subscript `v[k]` with a string key: `KeyError` on a dict missing
the key, `TypeError` on any non-dict (string/list indices must be integers,
other values are not subscriptable). -/
def getItem (v : Val) (k : String) : PyM Val :=
  match v with
  | .vDict fs =>
    match lookupD fs k with
    | some x => .ok x
    | none => .error .keyError
  | _ => .error .typeError

/-- Python `v.get(k, dflt)`: only dicts have `.get`; on anything else the
attribute lookup raises `AttributeError`. -/
def dictGet (v : Val) (k : String) (dflt : Val) : PyM Val :=
  match v with
  | .vDict fs => .ok ((lookupD fs k).getD dflt)
  | _ => .error .attributeError

/-- Python truthiness of a value. -/
def truthy : Val → Bool
  | .vNull => false
  | .vBool b => b
  | .vInt n => n != 0
  | .vStr s => !s.isEmpty
  | .vList xs => !xs.isEmpty
  | .vDict fs => !fs.isEmpty

/-- Python `for x in v`: lists yield their elements, strings their
characters, dicts their keys; other values are not iterable. -/
def pyIter : Val → PyM (List Val)
  | .vList xs => .ok xs
  | .vStr s => .ok (s.toList.map (fun c => .vStr (String.mk [c])))
  | .vDict fs => .ok (fs.map (fun p => .vStr p.1))
  | _ => .error .typeError

/-- A proleptic-Gregorian calendar date, as `datetime.date`. -/
structure Date where
  year : Nat
  month : Nat
  day : Nat
deriving DecidableEq

/-- Python `date` ordering (chronological; on valid dates this is the
lexicographic order on year/month/day). -/
def dateLe (a b : Date) : Bool :=
  Nat.blt a.year b.year ||
    (a.year == b.year &&
      (Nat.blt a.month b.month || (a.month == b.month && Nat.ble a.day b.day)))

/-- Gregorian leap-year rule, as `calendar.isleap`. -/
def isLeap (y : Nat) : Bool :=
  (y % 4 == 0 && y % 100 != 0) || y % 400 == 0

/-- Number of days in a month of a given year. -/
def daysInMonth (y m : Nat) : Nat :=
  if m == 2 then (if isLeap y then 29 else 28)
  else if m == 4 || m == 6 || m == 9 || m == 11 then 30
  else 31

/-- Days in year `y` strictly before month `m`. -/
def daysBeforeMonth (y m : Nat) : Nat :=
  (List.range (m - 1)).foldl (fun acc i => acc + daysInMonth y (i + 1)) 0

/-- Python `date.toordinal`: day count with 0001-01-01 as ordinal 1. -/
def Date.toOrdinal (d : Date) : Nat :=
  let p := d.year - 1
  365 * p + p / 4 - p / 100 + p / 400 + daysBeforeMonth d.year d.month + d.day

/-- Python `date.weekday()`: Monday = 0 … Sunday = 6 (0001-01-01 was a
Monday; `(toordinal + 6) % 7` equals `(toordinal - 1) % 7` for ordinals
at least 1). -/
def pyWeekday (d : Date) : Nat := (d.toOrdinal + 6) % 7

/-- Python `s[:2].lower()`: the first two characters, lowercased. -/
def firstTwoLower (s : String) : String :=
  String.mk ((s.toList.take 2).map Char.toLower)

/-- Line 20 of the source: `target_date.strftime('%a')[:2].lower()`.
`strftime('%a')` returns the current locale's abbreviated day name, so the
locale's `abday` table (indexed by `pyWeekday`) is an explicit argument. -/
def dayKey (abday : List String) (d : Date) : String :=
  firstTwoLower (abday.getD (pyWeekday d) "")

/-- Abbreviated day names of the POSIX/C locale (Python's default). -/
def localeC : List String := ["Mon", "Tue", "Wed", "Thu", "Fri", "Sat", "Sun"]

/-- Abbreviated day names of the `de_DE` locale, matching the two-letter
lowercase keys (`mo`, `di`, `mi`, `do`, `fr`, `sa`, `so`) used by the data. -/
def localeDe : List String := ["Mo", "Di", "Mi", "Do", "Fr", "Sa", "So"]

/-- Numeric value of a decimal digit character. -/
def digitVal (c : Char) : Option Nat :=
  if c.isDigit then some (c.toNat - 48) else none

/-- Python `date.fromisoformat` on the canonical `YYYY-MM-DD` form used by
the data's validity fields: exactly ten characters, digits in the digit
positions, month and day in range; anything else is rejected
(`ValueError`). -/
def parseIsoDate (s : String) : Option Date :=
  match s.toList with
  | [y1, y2, y3, y4, '-', m1, m2, '-', d1, d2] =>
    match digitVal y1, digitVal y2, digitVal y3, digitVal y4,
          digitVal m1, digitVal m2, digitVal d1, digitVal d2 with
    | some a, some b, some c, some e, some f, some g, some h, some i =>
      let y := 1000 * a + 100 * b + 10 * c + e
      let m := 10 * f + g
      let dy := 10 * h + i
      if 1 ≤ y ∧ 1 ≤ m ∧ m ≤ 12 ∧ 1 ≤ dy ∧ dy ≤ daysInMonth y m then
        some ⟨y, m, dy⟩
      else none
    | _, _, _, _, _, _, _, _ => none
  | _ => none

/-- `date.fromisoformat(v)`: `TypeError` when the argument is not a string,
`ValueError` when the string does not parse as a date. -/
def pyFromIsoformat (v : Val) : PyM Date :=
  match v with
  | .vStr s =>
    match parseIsoDate s with
    | some d => .ok d
    | none => .error .valueError
  | _ => .error .typeError

/-- Lines 27-28 (and 56-57): parse `entry['validity']['from']` and
`entry['validity']['to']`, in the source's evaluation order. -/
def validityOf (e : Val) : PyM (Date × Date) := do
  let vf ← pyFromIsoformat (← getItem (← getItem e "validity") "from")
  let vt ← pyFromIsoformat (← getItem (← getItem e "validity") "to")
  pure (vf, vt)

/-- Outcome of one iteration of a rule loop: fall through to the next
entry, or return from `get_opening_hours` with the given hours-or-None. -/
inductive Step where
  | cont
  | ret (r : Option (Val × Val))

/-- The per-iteration `try/except (ValueError, TypeError): continue` of
lines 26/49-50 and 55/66-67: those two exceptions turn into a fall-through,
all others propagate. -/
def guarded (m : PyM Step) : PyM Step :=
  match m with
  | .error .valueError => .ok .cont
  | .error .typeError => .ok .cont
  | .error .keyError => .error .keyError
  | .error .attributeError => .error .attributeError
  | .ok s => .ok s

/-- Lines 38-47 and 60-64 (the identical window lookup of both tiers):
`day_hours = entry.get(day_str); if day_hours and day_hours.get('from'):
return day_hours['from'], day_hours['to']` and otherwise `return None`. -/
def matchedCore (k : String) (e : Val) : PyM Step := do
  let dayHours ← dictGet e k .vNull
  if truthy dayHours then
    let fv ← dictGet dayHours "from" .vNull
    if truthy fv then
      let f ← getItem dayHours "from"
      let t ← getItem dayHours "to"
      pure (.ret (some (f, t)))
    else pure (.ret none)
  else pure (.ret none)

/-- Body of the holiday-tier loop (lines 26-48): parse the validity range,
and on a match check `entry.get('closed', False)` before the window lookup;
a non-matching range falls through. -/
def holidayBody (k : String) (d : Date) (e : Val) : PyM Step := do
  let vv ← validityOf e
  if dateLe vv.1 d && dateLe d vv.2 then
    let closed ← dictGet e "closed" (.vBool false)
    if truthy closed then pure (.ret none)
    else matchedCore k e
  else pure .cont

/-- Body of the regular-tier loop (lines 55-65): no closed-flag check. -/
def regularBody (k : String) (d : Date) (e : Val) : PyM Step := do
  let vv ← validityOf e
  if dateLe vv.1 d && dateLe d vv.2 then matchedCore k e
  else pure .cont

/-- Run one tier's `for entry in …` loop: each iteration is wrapped in the
`try/except` via `guarded`; `some r` means the function returned `r`,
`none` means the loop finished without returning. -/
def runLoop (body : Val → PyM Step) : List Val → PyM (Option (Option (Val × Val)))
  | [] => .ok none
  | e :: es =>
    match guarded (body e) with
    | .ok .cont => runLoop body es
    | .ok (.ret r) => .ok (some r)
    | .error err => .error err

/-- `get_opening_hours(pool, target_date)` of lines 14-69, with the locale's
abbreviated-day-name table explicit.  `.ok (some (f, t))` models returning
the pair of raw time values, `.ok none` models returning `None`. -/
def get_opening_hours (abday : List String) (pool : Val) (d : Date) :
    PyM (Option (Val × Val)) := do
  let k := dayKey abday d
  let bh ← dictGet pool "businesshours" (.vDict [])
  let hh ← dictGet bh "holiday_bhpool" (.vList [])
  let hlist ← pyIter hh
  match ← runLoop (holidayBody k d) hlist with
  | some r => pure r
  | none =>
    let rh ← dictGet bh "usually_bhpool" (.vList [])
    let rlist ← pyIter rh
    match ← runLoop (regularBody k d) rlist with
    | some r => pure r
    | none => pure none

/-- A pool record whose `businesshours` carries the given holiday
(override) and usually (regular) rule lists. -/
def mkPool (hl rl : List Val) : Val :=
  .vDict [("businesshours",
    .vDict [("holiday_bhpool", .vList hl), ("usually_bhpool", .vList rl)])]

/-- Resolution of a business-hours record (override list `hl`, regular list
`rl`) at a date: `get_opening_hours` on the corresponding pool record. -/
def resolveBH (abday : List String) (hl rl : List Val) (d : Date) :
    PyM (Option (Val × Val)) :=
  get_opening_hours abday (mkPool hl rl) d

/-- The Schedule Rule Matcher: the range-selection logic inlined in both
tier loops (lines 25-30 and 54-59) — parse each entry's validity range in
order, treat a caught parse failure (`ValueError`/`TypeError`) as
non-matching, return the first entry whose range contains the date, and
`none` when the loop finishes; an uncaught exception propagates. -/
def matchRule (d : Date) : List Val → PyM (Option Val)
  | [] => .ok none
  | e :: es =>
    match validityOf e with
    | .ok (vf, vt) =>
      if dateLe vf d && dateLe d vt then .ok (some e) else matchRule d es
    | .error .valueError => matchRule d es
    | .error .typeError => matchRule d es
    | .error .keyError => .error .keyError
    | .error .attributeError => .error .attributeError

/-- The entry's validity range parses and contains the date. -/
def entryMatchesB (d : Date) (e : Val) : Bool :=
  match validityOf e with
  | .ok (vf, vt) => dateLe vf d && dateLe d vt
  | .error _ => false

/-- The loop steps past the entry: its validity range fails to parse with a
caught error (`ValueError`/`TypeError`), or parses to a range not
containing the date. -/
def skipsB (d : Date) (e : Val) : Bool :=
  match validityOf e with
  | .ok (vf, vt) => !(dateLe vf d && dateLe d vt)
  | .error .valueError => true
  | .error .typeError => true
  | .error .keyError => false
  | .error .attributeError => false

/-- Truthiness of `entry.get('closed', False)` for a dict entry. -/
def closedB (e : Val) : Bool :=
  match e with
  | .vDict fs => truthy ((lookupD fs "closed").getD (.vBool false))
  | _ => false

/-- The entry's day-window sub-record for key `k`, when it is a dict with a
truthy (open) `from` time and a present `to` time: exactly the situation in
which the source returns `day_hours['from'], day_hours['to']`. -/
def openWindowB (k : String) (e : Val) : Option (Val × Val) :=
  match e with
  | .vDict fs =>
    match lookupD fs k with
    | some (.vDict ws) =>
      match lookupD ws "from" with
      | some fv =>
        if truthy fv then
          match lookupD ws "to" with
          | some tv => some (fv, tv)
          | none => none
        else none
      | none => none
    | _ => none
  | _ => none

/-- The entry has no day window with an open time for key `k`: the key is
absent, its value is falsy, or it is a dict whose `from` value is absent or
falsy.  (Day-window sub-records are dicts in the data model.) -/
def noWindowB (k : String) (e : Val) : Bool :=
  match e with
  | .vDict fs =>
    match lookupD fs k with
    | none => true
    | some w =>
      if truthy w then
        match w with
        | .vDict ws => !truthy ((lookupD ws "from").getD .vNull)
        | _ => false
      else true
  | _ => false

/-- The entry's day window for key `k` is a dict whose `from` key is
present but bound to a falsy value (empty string, null, false, 0, …). -/
def falsyWindowFromB (k : String) (e : Val) : Bool :=
  match e with
  | .vDict fs =>
    match lookupD fs k with
    | some (.vDict ws) =>
      match lookupD ws "from" with
      | some fv => !truthy fv
      | none => false
    | _ => false
  | _ => false

/-- Python `time.fromisoformat` on the `HH:MM` form used by the data's
time-of-day strings, as minutes since midnight. -/
def parseTime (s : String) : Option Nat :=
  match s.toList with
  | [h1, h2, ':', m1, m2] =>
    match digitVal h1, digitVal h2, digitVal m1, digitVal m2 with
    | some a, some b, some c, some d =>
      if 10 * a + b ≤ 23 ∧ 10 * c + d ≤ 59 then
        some ((10 * a + b) * 60 + (10 * c + d))
      else none
    | _, _, _, _ => none
  | _ => none

/-- `time.fromisoformat(v)`: `TypeError` when the argument is not a string,
`ValueError` when the string does not parse as a time. -/
def pyTimeFromIso (v : Val) : PyM Nat :=
  match v with
  | .vStr s =>
    match parseTime s with
    | some t => .ok t
    | none => .error .valueError
  | _ => .error .typeError

/-- Outcome of one (pool, date) iteration of `create_calendar`'s day loop:
no event (hours were `None`), an emitted event with civil start/end
timestamps in minutes (`toOrdinal * 1440 + minutes-of-day`), or the
per-item warning of line 140 (day skipped). -/
inductive DayOutcome where
  | noEvent
  | event (startTs endTs : Nat)
  | warned
deriving DecidableEq

/-- Lines 114-140: resolve the date's hours; when a pair is returned, parse
both times inside a `try` that catches only `ValueError` (printing the
warning and skipping the day); compute the start/end timestamps, adding a
day to the end when `dt_end <= dt_start` (line 127-128). -/
def processDay (abday : List String) (pool : Val) (d : Date) : PyM DayOutcome :=
  match get_opening_hours abday pool d with
  | .error err => .error err
  | .ok none => .ok .noEvent
  | .ok (some (sv, tv)) =>
    match (do
      let st ← pyTimeFromIso sv
      let et ← pyTimeFromIso tv
      let s := d.toOrdinal * 1440 + st
      let e := d.toOrdinal * 1440 + et
      pure (DayOutcome.event s (if e ≤ s then e + 1440 else e)) : PyM DayOutcome) with
    | .error .valueError => .ok .warned
    | other => other

/-- The next calendar day, as `date + timedelta(days=1)` on a valid date. -/
def Date.succ (d : Date) : Date :=
  if d.day < daysInMonth d.year d.month then ⟨d.year, d.month, d.day + 1⟩
  else if d.month < 12 then ⟨d.year, d.month + 1, 1⟩
  else ⟨d.year + 1, 1, 1⟩

/-- The dates `today + timedelta(days=i)` for `i in range(n)` (line 112-113). -/
def dateWindow : Date → Nat → List Date
  | _, 0 => []
  | s, n + 1 => s :: dateWindow s.succ n

/-- The day loop of lines 112-140 for one pool: process each date of the
window in order; an uncaught exception aborts the whole enumeration. -/
def enumeratePool (abday : List String) (pool : Val) (start : Date) (n : Nat) :
    PyM (List (Date × DayOutcome)) :=
  (dateWindow start n).mapM (fun d => do
    let o ← processDay abday pool d
    pure (d, o))

/-- Lines 97-104: keep a pool iff `pool.get('lookups', {}).get('type',
{}).get('value')` equals `'Hallenbad'` and `pool.get('name')` is truthy. -/
def poolIncluded (pool : Val) : PyM Bool := do
  let lookups ← dictGet pool "lookups" (.vDict [])
  let ty ← dictGet lookups "type" (.vDict [])
  let tyv ← dictGet ty "value" .vNull
  match tyv with
  | .vStr s =>
    if s == "Hallenbad" then
      let name ← dictGet pool "name" .vNull
      pure (truthy name)
    else pure false
  | _ => pure false

/-- The outer pool loop of lines 96-140: filtered pools are processed in
input order, each over the full date window; an uncaught exception from any
pool's day loop aborts the run. -/
def enumerateAll (abday : List String) (start : Date) (n : Nat) :
    List Val → PyM (List (Val × Date × DayOutcome))
  | [] => .ok []
  | p :: ps => do
    let inc ← poolIncluded p
    if inc then
      let outs ← enumeratePool abday p start n
      let tail ← enumerateAll abday start n ps
      pure (outs.map (fun q => (p, q.1, q.2)) ++ tail)
    else
      enumerateAll abday start n ps

/-- Two-tier combination used to state how `get_opening_hours` composes its
loops: an override-loop return or exception decides the result; only a
fall-through consults the regular loop. -/
def tier2 (h r : PyM (Option (Option (Val × Val)))) : PyM (Option (Val × Val)) :=
  match h with
  | .error err => .error err
  | .ok (some res) => .ok res
  | .ok none =>
    match r with
    | .error err => .error err
    | .ok (some res) => .ok res
    | .ok none => .ok none

/-- The resolved hours pair consists of strings, at least one of which is
not a parsable time of day: exactly the bad-input class that line 139's
`except ValueError` turns into a warning. -/
def stringTimesBadB : Val × Val → Bool
  | (.vStr s, .vStr t) => (parseTime s).isNone || (parseTime t).isNone
  | _ => false

/-! ### Concrete schedule data for the worked examples -/

/-- Override entry valid only on 2024-06-12 (a Wednesday), not closed,
Wednesday window 10:00-14:00. -/
def ovWedWindow : Val := .vDict [
  ("validity", .vDict [("from", .vStr "2024-06-12"), ("to", .vStr "2024-06-12")]),
  ("mi", .vDict [("from", .vStr "10:00"), ("to", .vStr "14:00")])]

/-- Regular entry valid all of 2024, Wednesday window 06:00-22:00. -/
def regWedAllYear : Val := .vDict [
  ("validity", .vDict [("from", .vStr "2024-01-01"), ("to", .vStr "2024-12-31")]),
  ("mi", .vDict [("from", .vStr "06:00"), ("to", .vStr "22:00")])]

/-- Override entry valid 2024-06-10 to 2024-06-20 with `closed: true`. -/
def ovJuneClosed : Val := .vDict [
  ("validity", .vDict [("from", .vStr "2024-06-10"), ("to", .vStr "2024-06-20")]),
  ("closed", .vBool true)]

/-- Regular entry valid all of 2024, Monday window 08:00-20:00. -/
def regMondayAllYear : Val := .vDict [
  ("validity", .vDict [("from", .vStr "2024-01-01"), ("to", .vStr "2024-12-31")]),
  ("mo", .vDict [("from", .vStr "08:00"), ("to", .vStr "20:00")])]

/-- Override entry valid 2024-06-10 to 2024-06-20, not closed, with only a
Monday window (no Wednesday key). -/
def ovJuneMondayOnly : Val := .vDict [
  ("validity", .vDict [("from", .vStr "2024-06-10"), ("to", .vStr "2024-06-20")]),
  ("mo", .vDict [("from", .vStr "09:00"), ("to", .vStr "17:00")])]

/-- Entry whose validity `from` is not a date. -/
def entryBadFrom : Val := .vDict [
  ("validity", .vDict [("from", .vStr "not-a-date"), ("to", .vStr "2024-12-31")])]

/-- Entry with no `validity` key at all. -/
def entryNoValidity : Val := .vDict [("closed", .vBool true)]

/-- Regular entry valid all of 2024, Monday 06:30-21:00 and no Tuesday
key. -/
def regMondayOnly : Val := .vDict [
  ("validity", .vDict [("from", .vStr "2024-01-01"), ("to", .vStr "2024-12-31")]),
  ("mo", .vDict [("from", .vStr "06:30"), ("to", .vStr "21:00")])]

/-- Regular entry valid all of 2024, Tuesday window 06:30-21:00 under the
data's German key `di`. -/
def regTuesdayAllYear : Val := .vDict [
  ("validity", .vDict [("from", .vStr "2024-01-01"), ("to", .vStr "2024-12-31")]),
  ("di", .vDict [("from", .vStr "06:30"), ("to", .vStr "21:00")])]

/-- Regular entry whose Tuesday window has an unparsable time string. -/
def regBadTuesdayTime : Val := .vDict [
  ("validity", .vDict [("from", .vStr "2024-01-01"), ("to", .vStr "2024-12-31")]),
  ("mo", .vDict [("from", .vStr "06:30"), ("to", .vStr "21:00")]),
  ("di", .vDict [("from", .vStr "25:99"), ("to", .vStr "21:00")])]

/-- Regular entry whose Monday window `from` is the number 6 rather than a
string. -/
def regNumericTime : Val := .vDict [
  ("validity", .vDict [("from", .vStr "2024-01-01"), ("to", .vStr "2024-12-31")]),
  ("mo", .vDict [("from", .vInt 6), ("to", .vStr "21:00")])]

/-- Regular entry valid all of 2024, Thursday window 23:00-01:00 (close
before open). -/
def regNightThursday : Val := .vDict [
  ("validity", .vDict [("from", .vStr "2024-01-01"), ("to", .vStr "2024-12-31")]),
  ("do", .vDict [("from", .vStr "23:00"), ("to", .vStr "01:00")])]

/-- Override entry valid 2024-06-10 to 2024-06-20, not closed, Wednesday
window whose `from` is the empty string. -/
def ovEmptyFromWed : Val := .vDict [
  ("validity", .vDict [("from", .vStr "2024-06-10"), ("to", .vStr "2024-06-20")]),
  ("mi", .vDict [("from", .vStr ""), ("to", .vStr "14:00")])]

/-- Regular entry valid all of 2024, Wednesday window whose `from` is
null. -/
def regNullFromWed : Val := .vDict [
  ("validity", .vDict [("from", .vStr "2024-01-01"), ("to", .vStr "2024-12-31")]),
  ("mi", .vDict [("from", .vNull), ("to", .vStr "14:00")])]

/-- A pool record that passes the Hallenbad filter and carries the given
regular rule list (empty override tier). -/
def hallenbadPool (rl : List Val) : Val := .vDict [
  ("lookups", .vDict [("type", .vDict [("value", .vStr "Hallenbad")])]),
  ("name", .vStr "Hallenbad Heslach"),
  ("businesshours", .vDict [("holiday_bhpool", .vList []),
    ("usually_bhpool", .vList rl)])]

/-- The outcomes of running two days (2024-06-10 and 2024-06-11) against
`regBadTuesdayTime`: a Monday event, then a warned-and-skipped Tuesday. -/
def twoDayOutcome (d : Date) : DayOutcome :=
  if d = ⟨2024, 6, 10⟩ then
    .event (Date.toOrdinal ⟨2024, 6, 10⟩ * 1440 + 390)
           (Date.toOrdinal ⟨2024, 6, 10⟩ * 1440 + 1260)
  else .warned

/-! ### Basic lemmas about the embedded operations -/

theorem lookupD_isEmpty_false {fs : List (String × Val)} {k : String} {v : Val}
    (h : lookupD fs k = some v) : fs.isEmpty = false := by
  cases fs with
  | nil => simp [lookupD] at h
  | cons x xs => rfl

theorem validityOf_dict {e : Val} {p : Date × Date}
    (h : validityOf e = .ok p) : ∃ fs, e = .vDict fs := by
  cases e with
  | vDict fs => exact ⟨fs, rfl⟩
  | vNull => simp [validityOf, getItem] at h
  | vBool b => simp [validityOf, getItem] at h
  | vInt n => simp [validityOf, getItem] at h
  | vStr s => simp [validityOf, getItem] at h
  | vList xs => simp [validityOf, getItem] at h

theorem entryMatchesB_elim {d : Date} {e : Val} (h : entryMatchesB d e = true) :
    ∃ vf vt, validityOf e = .ok (vf, vt) ∧ dateLe vf d = true ∧ dateLe d vt = true := by
  unfold entryMatchesB at h
  split at h
  next vf vt heq => exact ⟨vf, vt, heq, by simpa using h⟩
  next => exact Bool.noConfusion h

/-- On a matching entry both loop bodies take the matched branch. -/
theorem holidayBody_matched {k : String} {d : Date} {e : Val} {vf vt : Date}
    (hv : validityOf e = .ok (vf, vt))
    (h1 : dateLe vf d = true) (h2 : dateLe d vt = true) :
    holidayBody k d e = (do
      let closed ← dictGet e "closed" (.vBool false)
      if truthy closed then pure (.ret none) else matchedCore k e) := by
  unfold holidayBody
  rw [hv]
  simp [h1, h2]

theorem regularBody_matched {k : String} {d : Date} {e : Val} {vf vt : Date}
    (hv : validityOf e = .ok (vf, vt))
    (h1 : dateLe vf d = true) (h2 : dateLe d vt = true) :
    regularBody k d e = matchedCore k e := by
  unfold regularBody
  rw [hv]
  simp [h1, h2]

/-- A skipped entry makes either guarded loop body fall through. -/
theorem holiday_skips {k : String} {d : Date} {e : Val}
    (h : skipsB d e = true) : guarded (holidayBody k d e) = .ok .cont := by
  unfold skipsB at h
  split at h
  next vf vt heq =>
    unfold holidayBody
    rw [heq]
    rcases (by simpa using h : dateLe vf d = false ∨ dateLe d vt = false) with h' | h' <;>
      simp [h', guarded]
  next heq => unfold holidayBody; rw [heq]; rfl
  next heq => unfold holidayBody; rw [heq]; rfl
  next heq => exact Bool.noConfusion h
  next heq => exact Bool.noConfusion h

theorem regular_skips {k : String} {d : Date} {e : Val}
    (h : skipsB d e = true) : guarded (regularBody k d e) = .ok .cont := by
  unfold skipsB at h
  split at h
  next vf vt heq =>
    unfold regularBody
    rw [heq]
    rcases (by simpa using h : dateLe vf d = false ∨ dateLe d vt = false) with h' | h' <;>
      simp [h', guarded]
  next heq => unfold regularBody; rw [heq]; rfl
  next heq => unfold regularBody; rw [heq]; rfl
  next heq => exact Bool.noConfusion h
  next heq => exact Bool.noConfusion h

/-- The matched window lookup always returns or raises an uncaught
exception: it never falls through and never raises a caught one. -/
theorem matchedCore_shape (k : String) (fs : List (String × Val)) :
    (∃ r, matchedCore k (.vDict fs) = .ok (.ret r)) ∨
    matchedCore k (.vDict fs) = .error .attributeError ∨
    matchedCore k (.vDict fs) = .error .keyError := by
  unfold matchedCore
  simp only [dictGet, pym_bind_ok]
  cases hw : (lookupD fs k).getD .vNull with
  | vNull => simp [truthy]
  | vBool b => cases b <;> simp [truthy, dictGet]
  | vInt n => by_cases hn : n = 0 <;> simp [truthy, hn, dictGet]
  | vStr s => by_cases hs : s.isEmpty = true <;> simp [truthy, hs, dictGet]
  | vList xs => cases xs <;> simp [truthy, dictGet]
  | vDict ws =>
    cases ws with
    | nil => simp [truthy]
    | cons w rest =>
      have htw : truthy (Val.vDict (w :: rest)) = true := rfl
      simp only [htw, if_true, dictGet, pym_bind_ok]
      cases hf : lookupD (w :: rest) "from" with
      | none => simp [hf, truthy]
      | some fv =>
        by_cases htf : truthy fv = true
        · simp only [hf, Option.getD_some, htf, if_true, getItem]
          cases ht : lookupD (w :: rest) "to" with
          | none => simp [hf, ht]
          | some tv => simp [hf, ht]
        · simp [hf, htf]

/-- When the entry has an open day window, the matched window lookup
returns exactly that window's times. -/
theorem matchedCore_open {k : String} {fs : List (String × Val)} {f t : Val}
    (h : openWindowB k (.vDict fs) = some (f, t)) :
    matchedCore k (.vDict fs) = .ok (.ret (some (f, t))) := by
  cases hw : lookupD fs k with
  | none => simp [openWindowB, hw] at h
  | some w =>
    cases w with
    | vDict ws =>
      cases hf : lookupD ws "from" with
      | none => simp [openWindowB, hw, hf] at h
      | some fv =>
        by_cases htf : truthy fv = true
        · cases ht : lookupD ws "to" with
          | none => simp [openWindowB, hw, hf, htf, ht] at h
          | some tv =>
            obtain ⟨rfl, rfl⟩ : fv = f ∧ tv = t := by
              simpa [openWindowB, hw, hf, htf, ht] using h
            have htw : truthy (Val.vDict ws) = true := by
              simp [truthy, lookupD_isEmpty_false hf]
            unfold matchedCore
            simp [dictGet, hw, htw, hf, htf, getItem, ht]
        · simp [openWindowB, hw, hf, htf] at h
    | vNull => simp [openWindowB, hw] at h
    | vBool b => simp [openWindowB, hw] at h
    | vInt n => simp [openWindowB, hw] at h
    | vStr s => simp [openWindowB, hw] at h
    | vList xs => simp [openWindowB, hw] at h

/-- When the entry has no open day window, the matched window lookup
returns `None` (closed). -/
theorem matchedCore_noWindow {k : String} {fs : List (String × Val)}
    (h : noWindowB k (.vDict fs) = true) :
    matchedCore k (.vDict fs) = .ok (.ret none) := by
  cases hw : lookupD fs k with
  | none =>
    unfold matchedCore
    simp [dictGet, hw, truthy]
  | some w =>
    by_cases htr : truthy w = true
    · cases w with
      | vDict ws =>
        have h' : truthy ((lookupD ws "from").getD .vNull) = false := by
          simpa [noWindowB, hw, htr] using h
        unfold matchedCore
        simp [dictGet, hw, htr, h']
      | vNull => simp [noWindowB, hw, htr] at h
      | vBool b => simp [noWindowB, hw, htr] at h
      | vInt n => simp [noWindowB, hw, htr] at h
      | vStr s => simp [noWindowB, hw, htr] at h
      | vList xs => simp [noWindowB, hw, htr] at h
    · have htr' : truthy w = false := by simpa using htr
      unfold matchedCore
      simp [dictGet, hw, htr']

/-- `guarded` is the identity on every shape `matchedCore` can take. -/
theorem guarded_matchedCore (k : String) (fs : List (String × Val)) :
    guarded (matchedCore k (.vDict fs)) = matchedCore k (.vDict fs) := by
  rcases matchedCore_shape k fs with ⟨r, h⟩ | h | h <;> rw [h] <;> rfl

theorem matchedCore_ne_cont (k : String) (fs : List (String × Val)) :
    matchedCore k (.vDict fs) ≠ .ok .cont := by
  rcases matchedCore_shape k fs with ⟨r, h⟩ | h | h <;> rw [h] <;> simp

/-- A matching, explicitly closed override entry returns `None`. -/
theorem holiday_matched_closed {k : String} {d : Date} {e : Val}
    (hm : entryMatchesB d e = true) (hc : closedB e = true) :
    guarded (holidayBody k d e) = .ok (.ret none) := by
  obtain ⟨vf, vt, hv, h1, h2⟩ := entryMatchesB_elim hm
  obtain ⟨fs, rfl⟩ := validityOf_dict hv
  rw [holidayBody_matched hv h1 h2]
  have h' : truthy ((lookupD fs "closed").getD (.vBool false)) = true := by
    simpa [closedB] using hc
  simp [dictGet, h', guarded]

/-- A matching, not-closed override entry behaves as the window lookup. -/
theorem holiday_matched_open {k : String} {d : Date} {e : Val}
    (hm : entryMatchesB d e = true) (hc : closedB e = false) :
    guarded (holidayBody k d e) = matchedCore k e := by
  obtain ⟨vf, vt, hv, h1, h2⟩ := entryMatchesB_elim hm
  obtain ⟨fs, rfl⟩ := validityOf_dict hv
  rw [holidayBody_matched hv h1 h2]
  have h' : truthy ((lookupD fs "closed").getD (.vBool false)) = false := by
    simpa [closedB] using hc
  simp only [dictGet, pym_bind_ok, h', Bool.false_eq_true, if_false]
  exact guarded_matchedCore k fs

/-- A matching regular entry behaves as the window lookup. -/
theorem regular_matched {k : String} {d : Date} {e : Val}
    (hm : entryMatchesB d e = true) :
    guarded (regularBody k d e) = matchedCore k e := by
  obtain ⟨vf, vt, hv, h1, h2⟩ := entryMatchesB_elim hm
  obtain ⟨fs, rfl⟩ := validityOf_dict hv
  rw [regularBody_matched hv h1 h2]
  exact guarded_matchedCore k fs

/-- A matching entry never lets the holiday loop fall through to the next
entry. -/
theorem holiday_matched_ne_cont {k : String} {d : Date} {e : Val}
    (hm : entryMatchesB d e = true) :
    guarded (holidayBody k d e) ≠ .ok .cont := by
  obtain ⟨vf, vt, hv, h1, h2⟩ := entryMatchesB_elim hm
  obtain ⟨fs, rfl⟩ := validityOf_dict hv
  by_cases hc : closedB (Val.vDict fs) = true
  · rw [holiday_matched_closed hm hc]; simp
  · rw [holiday_matched_open hm (by simpa using hc)]
    exact matchedCore_ne_cont k fs

/-! ### Loop lemmas -/

theorem runLoop_all_cont {body : Val → PyM Step} {es : List Val}
    (h : ∀ e ∈ es, guarded (body e) = .ok .cont) :
    runLoop body es = .ok none := by
  induction es with
  | nil => rfl
  | cons e es ih =>
    unfold runLoop
    rw [h e (by simp)]
    exact ih (fun x hx => h x (by simp [hx]))

theorem runLoop_ret {body : Val → PyM Step} {e : Val} {r : Option (Val × Val)}
    (pre post : List Val)
    (hpre : ∀ x ∈ pre, guarded (body x) = .ok .cont)
    (he : guarded (body e) = .ok (.ret r)) :
    runLoop body (pre ++ e :: post) = .ok (some r) := by
  induction pre with
  | nil =>
    rw [List.nil_append]
    unfold runLoop
    rw [he]
  | cons x xs ih =>
    rw [List.cons_append]
    unfold runLoop
    rw [hpre x (by simp)]
    exact ih (fun y hy => hpre y (by simp [hy]))

theorem runLoop_err {body : Val → PyM Step} {e : Val} {err : PyErr}
    (pre post : List Val)
    (hpre : ∀ x ∈ pre, guarded (body x) = .ok .cont)
    (he : guarded (body e) = .error err) :
    runLoop body (pre ++ e :: post) = .error err := by
  induction pre with
  | nil =>
    rw [List.nil_append]
    unfold runLoop
    rw [he]
  | cons x xs ih =>
    rw [List.cons_append]
    unfold runLoop
    rw [hpre x (by simp)]
    exact ih (fun y hy => hpre y (by simp [hy]))

theorem runLoop_none_all_cont {body : Val → PyM Step} {es : List Val}
    (h : runLoop body es = .ok none) :
    ∀ e ∈ es, guarded (body e) = .ok .cont := by
  induction es with
  | nil => intro e he; exact absurd he (List.not_mem_nil e)
  | cons x xs ih =>
    intro e he
    unfold runLoop at h
    cases hg : guarded (body x) with
    | ok s =>
      cases s with
      | cont =>
        rw [hg] at h
        rcases List.mem_cons.mp he with rfl | hmem
        · exact hg
        · exact ih h e hmem
      | ret r => rw [hg] at h; exact absurd h (by simp)
    | error err => rw [hg] at h; exact absurd h (by simp)

/-- `get_opening_hours` is the two-tier combination of the two loops: the
override (holiday) loop's outcome decides unless it falls through. -/
theorem resolveBH_eq (abday : List String) (hl rl : List Val) (d : Date) :
    resolveBH abday hl rl d =
      tier2 (runLoop (holidayBody (dayKey abday d) d) hl)
            (runLoop (regularBody (dayKey abday d) d) rl) := by
  have key : resolveBH abday hl rl d =
      ((runLoop (holidayBody (dayKey abday d) d) hl) >>= fun o =>
        match o with
        | some r => pure r
        | none =>
          (runLoop (regularBody (dayKey abday d) d) rl) >>= fun o2 =>
            match o2 with
            | some r => pure r
            | none => pure none) := rfl
  rw [key]
  cases runLoop (holidayBody (dayKey abday d) d) hl with
  | error err => rfl
  | ok o =>
    cases o with
    | some r => rfl
    | none =>
      cases runLoop (regularBody (dayKey abday d) d) rl with
      | error err => rfl
      | ok o2 =>
        cases o2 with
        | some r => rfl
        | none => rfl

theorem dateLe_refl (a : Date) : dateLe a a = true := by
  simp [dateLe, Nat.ble_self_eq_true]

/-- A skipped entry is stepped over by the matcher. -/
theorem matchRule_cons (d : Date) (e : Val) (es : List Val) :
    matchRule d (e :: es) = (match validityOf e with
      | .ok (vf, vt) =>
        if dateLe vf d && dateLe d vt then .ok (some e) else matchRule d es
      | .error .valueError => matchRule d es
      | .error .typeError => matchRule d es
      | .error .keyError => .error .keyError
      | .error .attributeError => .error .attributeError) := rfl

theorem matchRule_skip {d : Date} {e : Val} (es : List Val)
    (h : skipsB d e = true) : matchRule d (e :: es) = matchRule d es := by
  rw [matchRule_cons]
  unfold skipsB at h
  split at h
  next vf vt heq =>
    rcases (by simpa using h : dateLe vf d = false ∨ dateLe d vt = false) with h' | h' <;>
      simp [h']
  next heq => rfl
  next heq => rfl
  next heq => exact Bool.noConfusion h
  next heq => exact Bool.noConfusion h

/-- A falsy `from` value in the day window is one way of having no open
window. -/
theorem falsyFrom_noWindow {k : String} {e : Val}
    (h : falsyWindowFromB k e = true) : noWindowB k e = true := by
  cases e with
  | vDict fs =>
    cases hw : lookupD fs k with
    | none => simp [falsyWindowFromB, hw] at h
    | some w =>
      cases w with
      | vDict ws =>
        cases hf : lookupD ws "from" with
        | none => simp [falsyWindowFromB, hw, hf] at h
        | some fv =>
          have hfv : truthy fv = false := by
            simpa [falsyWindowFromB, hw, hf] using h
          have htw : truthy (Val.vDict ws) = true := by
            simp [truthy, lookupD_isEmpty_false hf]
          simp [noWindowB, hw, htw, hf, hfv]
      | vNull => simp [falsyWindowFromB, hw] at h
      | vBool b => simp [falsyWindowFromB, hw] at h
      | vInt n => simp [falsyWindowFromB, hw] at h
      | vStr s => simp [falsyWindowFromB, hw] at h
      | vList xs => simp [falsyWindowFromB, hw] at h
  | vNull => simp [falsyWindowFromB] at h
  | vBool b => simp [falsyWindowFromB] at h
  | vInt n => simp [falsyWindowFromB] at h
  | vStr s => simp [falsyWindowFromB] at h
  | vList xs => simp [falsyWindowFromB] at h

/-- Every time of day accepted by `parseTime` is below 24 hours. -/
theorem parseTime_lt {s : String} {t : Nat} (h : parseTime s = some t) :
    t < 1440 := by
  unfold parseTime at h
  repeat split at h
  all_goals first
    | exact Option.noConfusion h
    | (have hmm := Option.some.inj h; omega)

/-- A resolved pair of strings with an unparsable time makes the day loop
print the warning and skip the day. -/
theorem processDay_warned {abday : List String} {pool : Val} {d : Date}
    {p : Val × Val}
    (hres : get_opening_hours abday pool d = .ok (some p))
    (hbad : stringTimesBadB p = true) :
    processDay abday pool d = .ok .warned := by
  obtain ⟨sv, tv⟩ := p
  cases sv with
  | vStr s =>
    cases tv with
    | vStr t =>
      unfold processDay
      rw [hres]
      cases hps : parseTime s with
      | none => simp [pyTimeFromIso, hps]
      | some st =>
        cases hpt : parseTime t with
        | none => simp [pyTimeFromIso, hps, hpt]
        | some et => simp [stringTimesBadB, hps, hpt] at hbad
    | vNull => simp [stringTimesBadB] at hbad
    | vBool b => simp [stringTimesBadB] at hbad
    | vInt n => simp [stringTimesBadB] at hbad
    | vList xs => simp [stringTimesBadB] at hbad
    | vDict fs => simp [stringTimesBadB] at hbad
  | vNull => simp [stringTimesBadB] at hbad
  | vBool b => simp [stringTimesBadB] at hbad
  | vInt n => simp [stringTimesBadB] at hbad
  | vList xs => simp [stringTimesBadB] at hbad
  | vDict fs => simp [stringTimesBadB] at hbad

/-- When every day of the window processes without an uncaught exception,
the day loop completes and yields one outcome per day, in date order. -/
theorem enumeratePool_ok {abday : List String} {pool : Val}
    (g : Date → DayOutcome) :
    ∀ (start : Date) (n : Nat),
      (∀ d ∈ dateWindow start n, processDay abday pool d = .ok (g d)) →
      enumeratePool abday pool start n =
        .ok ((dateWindow start n).map (fun d => (d, g d))) := by
  intro start n
  induction n generalizing start with
  | zero => intro _; rfl
  | succ n ih =>
    intro h
    unfold enumeratePool dateWindow
    rw [List.mapM_cons]
    have h0 : processDay abday pool start = .ok (g start) :=
      h start (by simp [dateWindow])
    have hrest := ih start.succ (fun y hy => h y (by simp [dateWindow, hy]))
    unfold enumeratePool at hrest
    simp only [h0, pym_bind_ok, hrest, List.map_cons]
    rfl

/-- When every pool passes the filter and every pool's day loop completes,
the whole run completes, pools in input order. -/
theorem enumerateAll_ok {abday : List String} {start : Date} {n : Nat}
    (g2 : Val → List (Date × DayOutcome)) :
    ∀ pools : List Val,
      (∀ p ∈ pools, poolIncluded p = .ok true) →
      (∀ p ∈ pools, enumeratePool abday p start n = .ok (g2 p)) →
      enumerateAll abday start n pools =
        .ok (pools.flatMap (fun p => (g2 p).map (fun q => (p, q.1, q.2)))) := by
  intro pools
  induction pools with
  | nil => intro _ _; rfl
  | cons p ps ih =>
    intro hI hE
    unfold enumerateAll
    rw [hI p (by simp)]
    simp only [pym_bind_ok, if_true]
    rw [hE p (by simp)]
    simp only [pym_bind_ok]
    rw [ih (fun q hq => hI q (by simp [hq])) (fun q hq => hE q (by simp [hq]))]
    simp [List.flatMap_cons]

theorem runLoop_cons (body : Val → PyM Step) (e : Val) (es : List Val) :
    runLoop body (e :: es) = (match guarded (body e) with
      | .ok .cont => runLoop body es
      | .ok (.ret r) => .ok (some r)
      | .error err => .error err) := rfl

/-! ### The claims -/

/-- C1: for every business-hours record and date, if any override-tier
(holiday) entry's validity range contains the date, the result of
resolution does not depend on the regular tier at all (any `usually_bhpool`
contents give the same result); and in particular, when the first matching
override entry — all earlier entries being skipped — is not closed and has
a day window with an open time for the date's weekday key, resolution
returns Open with exactly that override window's times, whatever the
regular tier would have said. -/
theorem override_precedence_determines_result (abday : List String)
    (hl rl rl' : List Val) (d : Date)
    (hex : ∃ e ∈ hl, entryMatchesB d e = true) :
    resolveBH abday hl rl d = resolveBH abday hl rl' d ∧
    (∀ (pre : List Val) (e : Val) (post : List Val) (f t : Val),
      hl = pre ++ e :: post →
      (∀ x ∈ pre, skipsB d x = true) →
      entryMatchesB d e = true →
      closedB e = false →
      openWindowB (dayKey abday d) e = some (f, t) →
      resolveBH abday hl rl d = .ok (some (f, t))) := by
  constructor
  · cases hres : runLoop (holidayBody (dayKey abday d) d) hl with
    | error err => rw [resolveBH_eq, resolveBH_eq, hres]; rfl
    | ok o =>
      cases o with
      | some r => rw [resolveBH_eq, resolveBH_eq, hres]; rfl
      | none =>
        exfalso
        obtain ⟨e, he, hm⟩ := hex
        exact holiday_matched_ne_cont hm (runLoop_none_all_cont hres e he)
  · rintro pre e post f t rfl hpre hm hc hwin
    obtain ⟨vf, vt, hv, _, _⟩ := entryMatchesB_elim hm
    obtain ⟨fs, hefs⟩ := validityOf_dict hv
    subst hefs
    have hbody : guarded (holidayBody (dayKey abday d) d (.vDict fs)) =
        .ok (.ret (some (f, t))) := by
      rw [holiday_matched_open hm hc]
      exact matchedCore_open hwin
    have hrun := runLoop_ret pre post (fun x hx => holiday_skips (hpre x hx)) hbody
    rw [resolveBH_eq, hrun]
    rfl

/-- C2: a matching override entry whose closed flag is truthy makes
resolution return Closed (`None`), regardless of the regular tier's
content. -/
theorem override_closed_wins (abday : List String) (pre post rl : List Val)
    (e : Val) (d : Date)
    (hpre : ∀ x ∈ pre, skipsB d x = true)
    (hm : entryMatchesB d e = true) (hc : closedB e = true) :
    resolveBH abday (pre ++ e :: post) rl d = .ok none := by
  have hbody : guarded (holidayBody (dayKey abday d) d e) = .ok (.ret none) :=
    holiday_matched_closed hm hc
  have hrun := runLoop_ret pre post (fun x hx => holiday_skips (hpre x hx)) hbody
  rw [resolveBH_eq, hrun]
  rfl

/-- C3: a matching override entry that is not closed and has no day window
with an open time for the date's weekday key makes resolution return
Closed, without falling back to the regular tier. -/
theorem override_no_window_closed (abday : List String)
    (pre post rl : List Val) (e : Val) (d : Date)
    (hpre : ∀ x ∈ pre, skipsB d x = true)
    (hm : entryMatchesB d e = true) (hc : closedB e = false)
    (hnw : noWindowB (dayKey abday d) e = true) :
    resolveBH abday (pre ++ e :: post) rl d = .ok none := by
  obtain ⟨vf, vt, hv, _, _⟩ := entryMatchesB_elim hm
  obtain ⟨fs, hefs⟩ := validityOf_dict hv
  subst hefs
  have hbody : guarded (holidayBody (dayKey abday d) d (.vDict fs)) =
      .ok (.ret none) := by
    rw [holiday_matched_open hm hc]
    exact matchedCore_noWindow hnw
  have hrun := runLoop_ret pre post (fun x hx => holiday_skips (hpre x hx)) hbody
  rw [resolveBH_eq, hrun]
  rfl

/-- C4: the rule matcher returns the first entry in list order whose
parsed validity range contains the date, with both endpoints inclusive (a
date equal to `from` or to `to` of a well-ordered range matches), and
returns none on the empty list or when every entry is skipped
(non-matching or unparsable-and-caught). -/
theorem rule_matcher_first_inclusive (d : Date) :
    matchRule d [] = .ok none ∧
    (∀ es : List Val, (∀ e ∈ es, skipsB d e = true) → matchRule d es = .ok none) ∧
    (∀ (pre : List Val) (e : Val) (post : List Val),
      (∀ x ∈ pre, skipsB d x = true) → entryMatchesB d e = true →
      matchRule d (pre ++ e :: post) = .ok (some e)) ∧
    (∀ (e : Val) (vf vt : Date), validityOf e = .ok (vf, vt) →
      dateLe vf vt = true →
      entryMatchesB vf e = true ∧ entryMatchesB vt e = true) := by
  refine ⟨rfl, ?_, ?_, ?_⟩
  · intro es h
    induction es with
    | nil => rfl
    | cons x xs ih =>
      rw [matchRule_skip xs (h x (by simp))]
      exact ih (fun y hy => h y (by simp [hy]))
  · intro pre e post hpre hm
    induction pre with
    | nil =>
      obtain ⟨vf, vt, hv, h1, h2⟩ := entryMatchesB_elim hm
      rw [List.nil_append, matchRule_cons, hv]
      simp [h1, h2]
    | cons x xs ih =>
      rw [List.cons_append, matchRule_skip _ (hpre x (by simp))]
      exact ih (fun y hy => hpre y (by simp [hy]))
  · intro e vf vt hv hle
    constructor <;> (unfold entryMatchesB; rw [hv]; simp [dateLe_refl, hle])

/-- C5: with no matching override entry, a matching regular entry with an
open day window yields Open with exactly that window's times; a matching
regular entry without one yields Closed; and no match in either tier
yields Closed. -/
theorem regular_tier_resolution (abday : List String) (hl rl : List Val)
    (d : Date) (hhl : ∀ x ∈ hl, skipsB d x = true) :
    ((∀ x ∈ rl, skipsB d x = true) → resolveBH abday hl rl d = .ok none) ∧
    (∀ (pre : List Val) (e : Val) (post : List Val) (f t : Val),
      rl = pre ++ e :: post →
      (∀ x ∈ pre, skipsB d x = true) →
      entryMatchesB d e = true →
      openWindowB (dayKey abday d) e = some (f, t) →
      resolveBH abday hl rl d = .ok (some (f, t))) ∧
    (∀ (pre : List Val) (e : Val) (post : List Val),
      rl = pre ++ e :: post →
      (∀ x ∈ pre, skipsB d x = true) →
      entryMatchesB d e = true →
      noWindowB (dayKey abday d) e = true →
      resolveBH abday hl rl d = .ok none) := by
  have hrunH : runLoop (holidayBody (dayKey abday d) d) hl = .ok none :=
    runLoop_all_cont (fun x hx => holiday_skips (hhl x hx))
  refine ⟨?_, ?_, ?_⟩
  · intro hall
    have hrunR : runLoop (regularBody (dayKey abday d) d) rl = .ok none :=
      runLoop_all_cont (fun x hx => regular_skips (hall x hx))
    rw [resolveBH_eq, hrunH, hrunR]
    rfl
  · rintro pre e post f t rfl hpre hm hwin
    obtain ⟨vf, vt, hv, _, _⟩ := entryMatchesB_elim hm
    obtain ⟨fs, hefs⟩ := validityOf_dict hv
    subst hefs
    have hbody : guarded (regularBody (dayKey abday d) d (.vDict fs)) =
        .ok (.ret (some (f, t))) := by
      rw [regular_matched hm]
      exact matchedCore_open hwin
    have hrun := runLoop_ret pre post (fun x hx => regular_skips (hpre x hx)) hbody
    rw [resolveBH_eq, hrunH, hrun]
    rfl
  · rintro pre e post rfl hpre hm hnw
    obtain ⟨vf, vt, hv, _, _⟩ := entryMatchesB_elim hm
    obtain ⟨fs, hefs⟩ := validityOf_dict hv
    subst hefs
    have hbody : guarded (regularBody (dayKey abday d) d (.vDict fs)) =
        .ok (.ret none) := by
      rw [regular_matched hm]
      exact matchedCore_noWindow hnw
    have hrun := runLoop_ret pre post (fun x hx => regular_skips (hpre x hx)) hbody
    rw [resolveBH_eq, hrunH, hrun]
    rfl

/-- C7 (amended): an entry whose validity values are present but fail to
parse (`ValueError` on a non-date string, `TypeError` on a non-string
value) is skipped as non-matching in either tier and resolution proceeds
exactly as without it; the original claim's further case of an absent
range field instead raises `KeyError` (see the counterexample). -/
theorem malformed_validity_value_skipped (abday : List String)
    (hl rl : List Val) (d : Date) (e : Val)
    (hbad : validityOf e = .error .valueError ∨
            validityOf e = .error .typeError) :
    resolveBH abday (e :: hl) rl d = resolveBH abday hl rl d ∧
    resolveBH abday hl (e :: rl) d = resolveBH abday hl rl d := by
  have hskip : skipsB d e = true := by
    rcases hbad with h | h <;> simp [skipsB, h]
  have hH : runLoop (holidayBody (dayKey abday d) d) (e :: hl) =
      runLoop (holidayBody (dayKey abday d) d) hl := by
    rw [runLoop_cons, holiday_skips hskip]
  have hR : runLoop (regularBody (dayKey abday d) d) (e :: rl) =
      runLoop (regularBody (dayKey abday d) d) rl := by
    rw [runLoop_cons, regular_skips hskip]
  constructor
  · rw [resolveBH_eq, resolveBH_eq, hH]
  · rw [resolveBH_eq, resolveBH_eq, hR]

/-- C10: in either tier, a matched entry whose day window for the date's
weekday key has a `from` key present but bound to a falsy value (empty
string, null, …) resolves to Closed, exactly as if the window were
absent. -/
theorem falsy_from_treated_closed (abday : List String) (d : Date) :
    (∀ (pre : List Val) (e : Val) (post rl : List Val),
      (∀ x ∈ pre, skipsB d x = true) →
      entryMatchesB d e = true → closedB e = false →
      falsyWindowFromB (dayKey abday d) e = true →
      resolveBH abday (pre ++ e :: post) rl d = .ok none) ∧
    (∀ (hl pre : List Val) (e : Val) (post : List Val),
      (∀ x ∈ hl, skipsB d x = true) →
      (∀ x ∈ pre, skipsB d x = true) →
      entryMatchesB d e = true →
      falsyWindowFromB (dayKey abday d) e = true →
      resolveBH abday hl (pre ++ e :: post) d = .ok none) := by
  constructor
  · intro pre e post rl hpre hm hc hff
    obtain ⟨vf, vt, hv, _, _⟩ := entryMatchesB_elim hm
    obtain ⟨fs, hefs⟩ := validityOf_dict hv
    subst hefs
    have hbody : guarded (holidayBody (dayKey abday d) d (.vDict fs)) =
        .ok (.ret none) := by
      rw [holiday_matched_open hm hc]
      exact matchedCore_noWindow (falsyFrom_noWindow hff)
    have hrun := runLoop_ret pre post (fun x hx => holiday_skips (hpre x hx)) hbody
    rw [resolveBH_eq, hrun]
    rfl
  · intro hl pre e post hhl hpre hm hff
    have hrunH : runLoop (holidayBody (dayKey abday d) d) hl = .ok none :=
      runLoop_all_cont (fun x hx => holiday_skips (hhl x hx))
    obtain ⟨vf, vt, hv, _, _⟩ := entryMatchesB_elim hm
    obtain ⟨fs, hefs⟩ := validityOf_dict hv
    subst hefs
    have hbody : guarded (regularBody (dayKey abday d) d (.vDict fs)) =
        .ok (.ret none) := by
      rw [regular_matched hm]
      exact matchedCore_noWindow (falsyFrom_noWindow hff)
    have hrun := runLoop_ret pre post (fun x hx => regular_skips (hpre x hx)) hbody
    rw [resolveBH_eq, hrunH, hrun]
    rfl

/-- C6 (code divergence): the weekday key of line 20 is computed with the
locale-sensitive `strftime('%a')`, so it is not a function of the date
alone: on Tuesday 2024-06-11 the POSIX/C locale (Python's default) yields
key "tu" while de_DE yields "di", the key the data and the source's own
comment (`'mo', 'di', etc.`) use; under the default locale a German-keyed
Tuesday window is therefore missed and the day resolves Closed. -/
theorem weekday_key_locale_dependent :
    dayKey localeC ⟨2024, 6, 11⟩ = "tu" ∧
    dayKey localeDe ⟨2024, 6, 11⟩ = "di" ∧
    get_opening_hours localeC (mkPool [] [regTuesdayAllYear]) ⟨2024, 6, 11⟩ =
      .ok none ∧
    get_opening_hours localeDe (mkPool [] [regTuesdayAllYear]) ⟨2024, 6, 11⟩ =
      .ok (some (.vStr "06:30", .vStr "21:00")) :=
  ⟨rfl, rfl, rfl, rfl⟩

/-- C7 counterexample: an override entry with no `validity` key makes
resolution raise `KeyError` (line 27 subscripts the dict; `KeyError` is not
among the caught exceptions) instead of skipping the entry: the regular
tier, which alone would have yielded the open Wednesday window, is never
reached. -/
theorem absent_validity_raises_keyerror :
    resolveBH localeDe [entryNoValidity] [regWedAllYear] ⟨2024, 6, 12⟩ =
      .error .keyError ∧
    resolveBH localeDe [] [regWedAllYear] ⟨2024, 6, 12⟩ =
      .ok (some (.vStr "06:00", .vStr "22:00")) :=
  ⟨rfl, rfl⟩

/-- C8 (amended): a malformed time-of-day string in a resolved day window
makes the day loop emit the per-item warning and omit exactly that day,
while enumeration completes over all days of the window and, for pools
that all process cleanly, over all pools; a non-string time value instead
raises an uncaught `TypeError` (see the counterexample). -/
theorem bad_time_string_warn_skip (abday : List String) (pool : Val)
    (start : Date) (n : Nat) (g : Date → DayOutcome) (d0 : Date) (p : Val × Val)
    (hok : ∀ d ∈ dateWindow start n, processDay abday pool d = .ok (g d))
    (hd0 : d0 ∈ dateWindow start n)
    (hres : get_opening_hours abday pool d0 = .ok (some p))
    (hbad : stringTimesBadB p = true) :
    enumeratePool abday pool start n =
      .ok ((dateWindow start n).map (fun d => (d, g d))) ∧
    g d0 = .warned ∧
    (∀ (pools : List Val) (g2 : Val → List (Date × DayOutcome)),
      (∀ q ∈ pools, poolIncluded q = .ok true) →
      (∀ q ∈ pools, enumeratePool abday q start n = .ok (g2 q)) →
      enumerateAll abday start n pools =
        .ok (pools.flatMap (fun q => (g2 q).map (fun x => (q, x.1, x.2))))) := by
  refine ⟨enumeratePool_ok g start n hok, ?_,
    fun pools g2 hI hE => enumerateAll_ok g2 pools hI hE⟩
  have h1 := hok d0 hd0
  have h2 := processDay_warned hres hbad
  rw [h1] at h2
  exact Except.ok.inj h2

/-- C8 counterexample: a day window whose `from` time value is the number
6 — a malformed time-of-day value, but not a string — aborts the whole
enumeration with an uncaught `TypeError` (`time.fromisoformat` raises
`TypeError` on a non-string, and line 139 catches only `ValueError`),
instead of warning and skipping that day. -/
theorem nonstring_time_aborts_run :
    get_opening_hours localeDe (hallenbadPool [regNumericTime]) ⟨2024, 6, 10⟩ =
      .ok (some (.vInt 6, .vStr "21:00")) ∧
    enumeratePool localeDe (hallenbadPool [regNumericTime]) ⟨2024, 6, 10⟩ 1 =
      .error .typeError ∧
    enumerateAll localeDe ⟨2024, 6, 10⟩ 1 [hallenbadPool [regNumericTime]] =
      .error .typeError :=
  ⟨rfl, rfl, rfl⟩

/-- C9: when the resolved close time-of-day is strictly before the open
time-of-day, lines 127-128 push the end timestamp one day forward: the
emitted event ends on the civil day after the start's day and has strictly
positive duration; the interval is emitted, never treated as invalid. -/
theorem rollover_next_day (abday : List String) (pool : Val) (d : Date)
    (s t : String) (st et : Nat)
    (hres : get_opening_hours abday pool d = .ok (some (.vStr s, .vStr t)))
    (hst : parseTime s = some st) (het : parseTime t = some et)
    (hlt : et < st) :
    processDay abday pool d =
      .ok (.event (d.toOrdinal * 1440 + st) (d.toOrdinal * 1440 + et + 1440)) ∧
    (d.toOrdinal * 1440 + et + 1440) / 1440 = (d.toOrdinal * 1440 + st) / 1440 + 1 ∧
    d.toOrdinal * 1440 + st < d.toOrdinal * 1440 + et + 1440 := by
  have hst' : st < 1440 := parseTime_lt hst
  have het' : et < 1440 := parseTime_lt het
  refine ⟨?_, ?_, by omega⟩
  · unfold processDay
    rw [hres]
    simp [pyTimeFromIso, hst, het, Nat.add_le_add_iff_left, Nat.le_of_lt hlt]
  · have h1 : (d.toOrdinal * 1440 + st) / 1440 = d.toOrdinal := by
      rw [Nat.mul_comm, Nat.mul_add_div (by norm_num)]
      simp [Nat.div_eq_of_lt hst']
    have h2 : (d.toOrdinal * 1440 + et + 1440) / 1440 = d.toOrdinal + 1 := by
      rw [Nat.add_assoc, Nat.mul_comm, Nat.mul_add_div (by norm_num),
        Nat.add_div_right et (by norm_num), Nat.div_eq_of_lt het']
    rw [h1, h2]

/-! ### Worked instances of the universally quantified statements -/

/-- C1 at Scenario C: the override Wednesday window 10:00-14:00 wins over
the regular Wednesday 06:00-22:00 on 2024-06-12 even though not closed,
and removing the regular tier entirely changes nothing. -/
theorem override_precedence_determines_result_witness :
    resolveBH localeDe [ovWedWindow] [regWedAllYear] ⟨2024, 6, 12⟩ =
      resolveBH localeDe [ovWedWindow] [] ⟨2024, 6, 12⟩ ∧
    resolveBH localeDe [ovWedWindow] [regWedAllYear] ⟨2024, 6, 12⟩ =
      .ok (some (.vStr "10:00", .vStr "14:00")) := by
  have h := override_precedence_determines_result localeDe [ovWedWindow]
    [regWedAllYear] [] ⟨2024, 6, 12⟩ ⟨ovWedWindow, by simp, by rfl⟩
  exact ⟨h.1, h.2 [] ovWedWindow [] (.vStr "10:00") (.vStr "14:00") rfl
    (by simp) (by rfl) (by rfl) (by rfl)⟩

/-- C2 at Scenario A: override closed for 2024-06-10 to 2024-06-20 beats
the overlapping regular Monday schedule on 2024-06-12. -/
theorem override_closed_wins_witness :
    resolveBH localeDe [ovJuneClosed] [regMondayAllYear] ⟨2024, 6, 12⟩ =
      .ok none :=
  override_closed_wins localeDe [] [] [regMondayAllYear] ovJuneClosed
    ⟨2024, 6, 12⟩ (by simp) (by rfl) (by rfl)

/-- C3: a matching override with only a Monday window, no closed flag,
resolves Wednesday 2024-06-12 as Closed without consulting the regular
Wednesday schedule. -/
theorem override_no_window_closed_witness :
    resolveBH localeDe [ovJuneMondayOnly] [regWedAllYear] ⟨2024, 6, 12⟩ =
      .ok none :=
  override_no_window_closed localeDe [] [] [regWedAllYear] ovJuneMondayOnly
    ⟨2024, 6, 12⟩ (by simp) (by rfl) (by rfl) (by rfl)

/-- C4: the matcher returns none on the empty list, steps over the
`not-a-date` entry to return the first matching one, and matches both
endpoints of the closed June range inclusively. -/
theorem rule_matcher_first_inclusive_witness :
    matchRule ⟨2024, 6, 12⟩ [] = .ok none ∧
    matchRule ⟨2024, 6, 12⟩ [entryBadFrom, ovWedWindow] = .ok (some ovWedWindow) ∧
    (entryMatchesB ⟨2024, 6, 10⟩ ovJuneClosed = true ∧
     entryMatchesB ⟨2024, 6, 20⟩ ovJuneClosed = true) := by
  have h := rule_matcher_first_inclusive ⟨2024, 6, 12⟩
  refine ⟨h.1, h.2.2.1 [entryBadFrom] ovWedWindow [] ?_ (by rfl), ?_⟩
  · intro x hx
    rw [List.mem_singleton] at hx
    subst hx
    rfl
  · exact (rule_matcher_first_inclusive ⟨2024, 6, 12⟩).2.2.2 ovJuneClosed
      ⟨2024, 6, 10⟩ ⟨2024, 6, 20⟩ rfl rfl

/-- C5 at Scenario B: regular Monday window 06:30-21:00, no Tuesday key:
Monday 2024-06-10 is Open, Tuesday 2024-06-11 is Closed, and with no rules
at all the day is Closed. -/
theorem regular_tier_resolution_witness :
    resolveBH localeDe [] [regMondayOnly] ⟨2024, 6, 10⟩ =
      .ok (some (.vStr "06:30", .vStr "21:00")) ∧
    resolveBH localeDe [] [regMondayOnly] ⟨2024, 6, 11⟩ = .ok none ∧
    resolveBH localeDe [] [] ⟨2024, 6, 11⟩ = .ok none := by
  refine ⟨?_, ?_, ?_⟩
  · exact (regular_tier_resolution localeDe [] [regMondayOnly] ⟨2024, 6, 10⟩
      (by simp)).2.1 [] regMondayOnly [] (.vStr "06:30") (.vStr "21:00") rfl
      (by simp) (by rfl) (by rfl)
  · exact (regular_tier_resolution localeDe [] [regMondayOnly] ⟨2024, 6, 11⟩
      (by simp)).2.2 [] regMondayOnly [] rfl (by simp) (by rfl) (by rfl)
  · exact (regular_tier_resolution localeDe [] [] ⟨2024, 6, 11⟩ (by simp)).1
      (by simp)

/-- C7 (amended) at Scenario D: the `from="not-a-date"` entry is invisible
to resolution in both tiers. -/
theorem malformed_validity_value_skipped_witness :
    resolveBH localeDe [entryBadFrom] [regWedAllYear] ⟨2024, 6, 12⟩ =
      resolveBH localeDe [] [regWedAllYear] ⟨2024, 6, 12⟩ ∧
    resolveBH localeDe [] [entryBadFrom, regWedAllYear] ⟨2024, 6, 12⟩ =
      resolveBH localeDe [] [regWedAllYear] ⟨2024, 6, 12⟩ :=
  malformed_validity_value_skipped localeDe [] [regWedAllYear] ⟨2024, 6, 12⟩
    entryBadFrom (Or.inl rfl)

/-- C10: an override window with empty-string `from` and a regular window
with null `from` both resolve Wednesday 2024-06-12 as Closed. -/
theorem falsy_from_treated_closed_witness :
    resolveBH localeDe [ovEmptyFromWed] [regWedAllYear] ⟨2024, 6, 12⟩ =
      .ok none ∧
    resolveBH localeDe [] [regNullFromWed] ⟨2024, 6, 12⟩ = .ok none := by
  have h := falsy_from_treated_closed localeDe ⟨2024, 6, 12⟩
  exact ⟨h.1 [] ovEmptyFromWed [] [regWedAllYear] (by simp) (by rfl) (by rfl)
      (by rfl),
    h.2 [] [] regNullFromWed [] (by simp) (by simp) (by rfl) (by rfl)⟩

/-- C8 (amended) on a two-day window: Monday 2024-06-10 yields an event,
Tuesday 2024-06-11 (time string "25:99") yields the warning and is
omitted, and both the day loop and the full run complete. -/
theorem bad_time_string_warn_skip_witness :
    enumeratePool localeDe (hallenbadPool [regBadTuesdayTime]) ⟨2024, 6, 10⟩ 2 =
      .ok ((dateWindow ⟨2024, 6, 10⟩ 2).map (fun d => (d, twoDayOutcome d))) ∧
    twoDayOutcome ⟨2024, 6, 11⟩ = .warned ∧
    enumerateAll localeDe ⟨2024, 6, 10⟩ 2 [hallenbadPool [regBadTuesdayTime]] =
      .ok ([hallenbadPool [regBadTuesdayTime]].flatMap (fun q =>
        ((dateWindow ⟨2024, 6, 10⟩ 2).map (fun d => (d, twoDayOutcome d))).map
          (fun x => (q, x.1, x.2)))) := by
  have hwin : dateWindow ⟨2024, 6, 10⟩ 2 = [⟨2024, 6, 10⟩, ⟨2024, 6, 11⟩] := rfl
  have hok : ∀ d ∈ dateWindow ⟨2024, 6, 10⟩ 2,
      processDay localeDe (hallenbadPool [regBadTuesdayTime]) d =
        .ok (twoDayOutcome d) := by
    rw [hwin]
    intro d hd
    rcases (by simpa using hd : d = (⟨2024, 6, 10⟩ : Date) ∨
        d = (⟨2024, 6, 11⟩ : Date)) with rfl | rfl <;> rfl
  have h := bad_time_string_warn_skip localeDe (hallenbadPool [regBadTuesdayTime])
    ⟨2024, 6, 10⟩ 2 twoDayOutcome ⟨2024, 6, 11⟩ (Val.vStr "25:99", Val.vStr "21:00")
    hok (by rw [hwin]; simp) rfl rfl
  refine ⟨h.1, h.2.1, ?_⟩
  exact h.2.2 [hallenbadPool [regBadTuesdayTime]]
    (fun _ => (dateWindow ⟨2024, 6, 10⟩ 2).map (fun d => (d, twoDayOutcome d)))
    (by
      intro q hq
      rw [List.mem_singleton] at hq
      subst hq
      rfl)
    (by
      intro q hq
      rw [List.mem_singleton] at hq
      subst hq
      exact h.1)

/-- C9 on a 23:00-01:00 Thursday window: the event of 2024-06-13 starts at
23:00 that day and ends at 01:00 on the following civil day, with positive
duration. -/
theorem rollover_next_day_witness :
    processDay localeDe (mkPool [] [regNightThursday]) ⟨2024, 6, 13⟩ =
      .ok (.event (Date.toOrdinal ⟨2024, 6, 13⟩ * 1440 + 1380)
                  (Date.toOrdinal ⟨2024, 6, 13⟩ * 1440 + 60 + 1440)) ∧
    (Date.toOrdinal ⟨2024, 6, 13⟩ * 1440 + 60 + 1440) / 1440 =
      (Date.toOrdinal ⟨2024, 6, 13⟩ * 1440 + 1380) / 1440 + 1 ∧
    Date.toOrdinal ⟨2024, 6, 13⟩ * 1440 + 1380 <
      Date.toOrdinal ⟨2024, 6, 13⟩ * 1440 + 60 + 1440 :=
  rollover_next_day localeDe (mkPool [] [regNightThursday]) ⟨2024, 6, 13⟩
    "23:00" "01:00" 1380 60 rfl rfl rfl (by norm_num)
